import Mathlib

/-!
# Verification of the lc0 WebSocket bridge engine core

Shallow embedding of `src/Windows/lc0_server.py`: the UCI line parsing
(`UCIEngine._parse_info`), result construction (`UCIEngine._build_result`),
the analyse loop's depth/nodes tracking and timeout path
(`UCIEngine.analyse`), the characteristics evaluator
(`calculate_characteristics`), score feedback (`score_to_feedback`),
move-token decoding (`uci_to_parts`) and the WebSocket dispatch defaults
(`Lc0Server._dispatch`).

Python strings are Lean `String`s, Python ints are `Int`, Python floats
arising as `int / 100.0` are modelled as `ℚ` (exact for every integer
centipawn input: the float comparisons against the threshold literals used
by the source agree with the rational comparisons for all integer inputs,
since adjacent representable inputs are 0.01 apart while float rounding
error near the thresholds is below 1e-15).  Python `dict[int, ...]` is an
association list preserving insertion order.  Exceptions swallowed by
`try/except` blocks are modelled with `Option`/`Except`.
-/

namespace Lc0

/-- Helper for `pySplit`: structural split over the character list,
accumulating the current (reversed) field. -/
def splitWsAux : List Char → List Char → List String
  | [], acc => if acc = [] then [] else [⟨acc.reverse⟩]
  | c :: cs, acc =>
    if c.isWhitespace then
      if acc = [] then splitWsAux cs [] else ⟨acc.reverse⟩ :: splitWsAux cs []
    else splitWsAux cs (c :: acc)

/-- Python `str.split()` with no argument: split on runs of whitespace,
dropping empty fields. -/
def pySplit (line : String) : List String :=
  splitWsAux line.toList []

/-- Python `line.startswith(pre)`. -/
def pyStartswith (s : String) (pre : String) : Bool :=
  pre.toList.isPrefixOf s.toList

/-- All-decimal-digit check for `pyInt`. -/
def digitsToNat : List Char → Option Nat
  | [] => none
  | cs => if cs.all Char.isDigit
          then some (cs.foldl (fun a c => 10 * a + (c.toNat - '0'.toNat)) 0)
          else none

/-- Python `int(token)` on a whitespace-free token: optional sign followed
by decimal digits (underscore separators, never produced by an engine, are
omitted).  `none` models a raised `ValueError`. -/
def pyInt (s : String) : Option Int :=
  match s.toList with
  | '-' :: rest => (digitsToNat rest).map (fun n => -(n : Int))
  | '+' :: rest => (digitsToNat rest).map (fun n => (n : Int))
  | cs => (digitsToNat cs).map (fun n => (n : Int))

/-- Python `list.index(x)`: index of the first occurrence, `none` when
absent (`x in parts` is `(pyIndex parts x).isSome`). -/
def pyIndex (parts : List String) (key : String) : Option Nat :=
  match parts with
  | [] => none
  | p :: rest => if p = key then some 0 else (pyIndex rest key).map (· + 1)

/-- `parts[parts.index(key) + off]` as an `Option`: `none` when `key` is
absent or the index is out of range (`IndexError`). -/
def tokenAfter (parts : List String) (key : String) (off : Nat) : Option String :=
  match pyIndex parts key with
  | none => none
  | some i => parts.get? (i + off)

/-- One MultiPV slot: the dict
`{"score_cp": None, "score_mate": None, "pv": [], "move": None}`. -/
structure Slot where
  score_cp   : Option Int
  score_mate : Option Int
  pv         : List String
  move       : Option String
  deriving DecidableEq, Repr

def defaultSlot : Slot := ⟨none, none, [], none⟩

/-- The `mpv` dict: slot number → slot data, insertion-ordered. -/
def Mpv : Type := List (Int × Slot)

instance : DecidableEq Mpv := inferInstanceAs (DecidableEq (List (Int × Slot)))

def emptyMpv : Mpv := []

/-- Python `mpv.get(k)` / `mpv[k]` read: first entry with the key. -/
def getSlot (mpv : Mpv) (k : Int) : Option Slot :=
  match mpv with
  | [] => none
  | (k', s) :: rest => if k' = k then some s else getSlot rest k

/-- Python `mpv[k] = s`: overwrite in place if present, append otherwise. -/
def setSlot (mpv : Mpv) (k : Int) (s : Slot) : Mpv :=
  match mpv with
  | [] => [(k, s)]
  | (k', s') :: rest => if k' = k then (k', s) :: rest else (k', s') :: setSlot rest k s

/-- `if slot not in mpv: mpv[slot] = {...}` -/
def ensureSlot (mpv : Mpv) (k : Int) : Mpv :=
  match getSlot mpv k with
  | some _ => mpv
  | none => setSlot mpv k defaultSlot

/-- Slot selection in `_parse_info`: explicit `multipv` rank when present
and parseable, else 1 (`ValueError`/`IndexError` leave the default). -/
def determineSlot (parts : List String) : Int :=
  match pyIndex parts "multipv" with
  | none => 1
  | some i =>
    match parts.get? (i + 1) with
    | none => 1
    | some tok => (pyInt tok).getD 1

/-- The `score` section of `_parse_info`'s `try` block.  `none` models an
exception escaping the block (`IndexError` reading the kind/value token or
`ValueError` from `int`), which also skips the `pv` section. -/
def scoreStep (parts : List String) (s : Slot) : Option Slot :=
  match pyIndex parts "score" with
  | none => some s
  | some i =>
    match parts.get? (i + 1), parts.get? (i + 2) with
    | some kind, some vtok =>
      match pyInt vtok with
      | none => none
      | some v =>
        if kind = "cp" then some { s with score_cp := some v, score_mate := none }
        else if kind = "mate" then some { s with score_mate := some v, score_cp := none }
        else some s
    | _, _ => none

/-- The `pv` section: everything after the first `pv` token becomes the
principal variation; its head (if any) becomes the candidate move. -/
def pvStep (parts : List String) (s : Slot) : Slot :=
  match pyIndex parts "pv" with
  | none => s
  | some i =>
    let pv := parts.drop (i + 1)
    { s with pv := pv, move := pv.head? }

/-- `UCIEngine._parse_info` on pre-split tokens. -/
def parseInfoParts (parts : List String) (mpv : Mpv) : Mpv :=
  let slot := determineSlot parts
  let mpv1 := ensureSlot mpv slot
  match getSlot mpv1 slot with
  | none => mpv1
  | some s =>
    match scoreStep parts s with
    | none => mpv1
    | some s1 => setSlot mpv1 slot (pvStep parts s1)

/-- `UCIEngine._parse_info`. -/
def parseInfo (line : String) (mpv : Mpv) : Mpv :=
  parseInfoParts (pySplit line) mpv

/-! ### Number formatting

Python's `f"{x:.2f}"` on a float obtained as `m / 100.0` for an integer
`m` renders `m / 100` with exactly two decimals (the nearest double is
within `2⁻⁵³` relative error, far less than half of `0.01`). -/

def twoDigits (k : Nat) : String :=
  (if k < 10 then "0" else "") ++ toString k

/-- Render `m / 100` with two decimal digits, e.g. `35 ↦ "0.35"`. -/
def fmtHundredths (m : Nat) : String :=
  toString (m / 100) ++ "." ++ twoDigits (m % 100)

/-- Python `f"{q:+.2f}"` for a rational with at most two decimal places. -/
def fmtSignedPawns (q : ℚ) : String :=
  (if q < 0 then "-" else "+") ++ fmtHundredths (Rat.floor (|q| * 100)).toNat

/-! ### `calculate_characteristics` -/

structure Characteristics where
  sharpness        : String
  difficulty       : String
  margin_for_error : String
  line_type        : String
  explanation      : String
  deriving DecidableEq, Repr

/-- The fixed fallback returned when either top score is missing. -/
def defaultCharacteristics : Characteristics :=
  ⟨"Balanced", "Intermediate", "Moderate", "Flexible",
   "Position requires standard play."⟩

/-- `calculate_characteristics(mpv)`. -/
def calculate_characteristics (mpv : Mpv) : Characteristics :=
  match (getSlot mpv 1).bind Slot.score_cp, (getSlot mpv 2).bind Slot.score_cp with
  | some s1, some s2 =>
    let m : Nat := (s1 - s2).natAbs          -- Python abs(s1 - s2), an int
    let gap : ℚ := (m : ℚ) / 100             -- centipawns → pawns
    let sharpness := if gap > 1.5 then "Sharp" else if gap > 0.5 then "Tactical"
                     else if gap > 0.2 then "Balanced" else "Quiet"
    let difficulty := if gap < 0.1 then "Expert" else if gap < 0.3 then "Advanced"
                      else if gap < 0.8 then "Intermediate" else "Beginner"
    let margin := if gap > 1.0 then "Narrow" else if gap > 0.3 then "Moderate"
                  else "Forgiving"
    let line_type := if gap > 1.5 then "Forcing" else if gap > 0.8 then "Committal"
                     else if gap > 0.2 then "Flexible" else "Quiet"
    let sent1 := if sharpness = "Sharp" then "Only one good move — critical position."
                 else if sharpness = "Tactical" then "Accuracy matters; some moves are clearly better."
                 else if sharpness = "Balanced" then "Multiple reasonable options available."
                 else "Many moves are roughly equal."
    let sent2 := if difficulty = "Expert" then "Requires deep calculation."
                 else if difficulty = "Advanced" then "Subtle differences demand careful study."
                 else if difficulty = "Intermediate" then "Best move is findable with focused thought."
                 else "The best move stands out clearly."
    let sent3 := if margin = "Narrow" then
                   "Only the best move maintains the advantage (gap: " ++ fmtHundredths m ++ "p)."
                 else if margin = "Moderate" then "Best move preferred, but alternatives are viable."
                 else "Several moves keep the advantage."
    let sent4 := if line_type = "Forcing" then "Forces the opponent into a narrow reply."
                 else if line_type = "Committal" then "Creates imbalances — commits to a clear plan."
                 else if line_type = "Flexible" then "Keeps options open for follow-up play."
                 else "Maneuvering — incremental improvement."
    ⟨sharpness, difficulty, margin, line_type,
     String.intercalate " " [sent1, sent2, sent3, sent4]⟩
  | _, _ => defaultCharacteristics

/-! ### `score_to_feedback` -/

/-- `score_to_feedback(score_cp, score_mate, side_to_move)`. -/
def score_to_feedback (score_cp : Option Int) (score_mate : Option Int)
    (side_to_move : String) : String :=
  match score_mate with
  | some m =>
    let winner := if side_to_move = "w" then (if 0 < m then "White" else "Black")
                  else (if 0 < m then "Black" else "White")
    let n := m.natAbs
    if 0 < m then winner ++ " has mate in " ++ toString n ++ "."
    else "Opponent has mate in " ++ toString n ++ "."
  | none =>
    match score_cp with
    | none => "Position is unclear."
    | some c =>
      let cp0 : ℚ := (c : ℚ) / 100
      let cp := if side_to_move = "b" then -cp0 else cp0
      if |cp| < 0.2 then "The position is roughly equal."
      else
        let favour := if 0 < cp then "White" else "Black"
        if |cp| < 0.5 then "Slight advantage for " ++ favour ++ " (" ++ fmtSignedPawns cp ++ ")."
        else if |cp| < 1.5 then "Clear advantage for " ++ favour ++ " (" ++ fmtSignedPawns cp ++ ")."
        else if |cp| < 3.0 then "Large advantage for " ++ favour ++ " (" ++ fmtSignedPawns cp ++ ")."
        else favour ++ " is winning (" ++ fmtSignedPawns cp ++ ")."

/-! ### `uci_to_parts` -/

/-- `uci_to_parts(move)`: `"e2e4" ↦ ("e2","e4",None)`, `"e7e8q" ↦ ("e7","e8","q")`. -/
def uci_to_parts (move : String) : String × String × Option String :=
  if move = "" ∨ move.length < 4 then ("", "", none)
  else (move.take 2, (move.drop 2).take 2,
        if move.length > 4 then some ((move.drop 4).take 1) else none)

/-! ### `_build_result` -/

/-- One entry of the `alternatives` list. -/
structure Alt where
  rank       : Int
  move       : String
  from_sq    : String
  to_sq      : String
  promotion  : Option String
  score_cp   : Option Int
  score_mate : Option Int
  deriving DecidableEq, Repr

structure AnalysisResult where
  bestmove        : Option String
  score_cp        : Option Int
  score_mate      : Option Int
  pv              : List String
  depth           : Int
  nodes           : Int
  alternatives    : List Alt
  characteristics : Characteristics
  deriving DecidableEq, Repr

def insertKey (x : Int) : List Int → List Int
  | [] => [x]
  | y :: ys => if x ≤ y then x :: y :: ys else y :: insertKey x ys

/-- Python `sorted(mpv.keys())` (keys are unique by construction). -/
def sortedKeys (mpv : Mpv) : List Int :=
  (mpv.map Prod.fst).foldr insertKey []

/-- `UCIEngine._build_result(bestmove_line, mpv, depth, nodes)`. -/
def buildResult (bestmove_line : String) (mpv : Mpv) (depth nodes : Int) :
    AnalysisResult :=
  let parts := pySplit bestmove_line
  let bm0 := parts.get? 1                    -- parts[1] if len(parts) > 1 else None
  let bestmove := if bm0 = some "(none)" then none else bm0
  let slot1 := getSlot mpv 1
  let alternatives := (sortedKeys mpv).filterMap (fun k =>
    match getSlot mpv k with
    | none => none
    | some s =>
      match s.move with
      | none => none                         -- "if not move: continue"
      | some mv =>
        if mv = "" then none
        else
          let (f, t, p) := uci_to_parts mv
          some ⟨k, mv, f, t, p, s.score_cp, s.score_mate⟩)
  { bestmove := bestmove
    score_cp := slot1.bind Slot.score_cp
    score_mate := slot1.bind Slot.score_mate
    pv := (slot1.map Slot.pv).getD []
    depth := depth
    nodes := nodes
    alternatives := alternatives
    characteristics := calculate_characteristics mpv }

/-! ### The `analyse` loop -/

/-- State threaded through `UCIEngine.analyse`'s read loop. -/
structure LoopState where
  mpv        : Mpv
  best_depth : Int
  best_nodes : Int
  deriving DecidableEq

/-- `int(parts[parts.index(key) + 1])` guarded by `key in parts`, inside a
`try` block: `.error` models a raised `ValueError`/`IndexError`, `.ok none`
means the keyword was absent. -/
def keyedInt (parts : List String) (key : String) : Except Unit (Option Int) :=
  match pyIndex parts key with
  | none => .ok none
  | some i =>
    match parts.get? (i + 1) with
    | none => .error ()
    | some t =>
      match pyInt t with
      | none => .error ()
      | some v => .ok (some v)

/-- The depth/nodes section of the loop body: `depth` raises → `nodes` is
not read either; `nodes` raising keeps the already-updated depth. -/
def depthNodes (parts : List String) (d n : Int) : Int × Int :=
  match keyedInt parts "depth" with
  | .error _ => (d, n)
  | .ok od =>
    let d1 := match od with
              | some v => if v > d then v else d
              | none => d
    match keyedInt parts "nodes" with
    | .error _ => (d1, n)
    | .ok nopt => (d1, nopt.getD n)

/-- Effect of one queued line on the loop state (`info` branch of the loop
body; any other line leaves the state unchanged). -/
def analyseStep (line : String) (st : LoopState) : LoopState :=
  if pyStartswith line "info" then
    let parts := pySplit line
    { mpv := parseInfoParts parts st.mpv
      best_depth := (depthNodes parts st.best_depth st.best_nodes).1
      best_nodes := (depthNodes parts st.best_depth st.best_nodes).2 }
  else st

/-- The depth value an `info` line contributes (parsed and assimilated as a
running max), if any. -/
def infoDepth (line : String) : Option Int :=
  if pyStartswith line "info" then
    match keyedInt (pySplit line) "depth" with
    | .ok (some v) => some v
    | _ => none
  else none

/-- The nodes value an `info` line stores (latest-wins), if any; a raise in
the depth section aborts the shared `try` block before `nodes` is read. -/
def infoNodes (line : String) : Option Int :=
  if pyStartswith line "info" then
    let parts := pySplit line
    match keyedInt parts "depth" with
    | .error _ => none
    | .ok _ =>
      match keyedInt parts "nodes" with
      | .ok (some v) => some v
      | _ => none
  else none

/-- What `analyse` does to the engine: write a line, or kill the process.
`analyse` itself only ever writes; `kill` exists so that its absence from
the trace is expressible (`_proc.kill()` lives only in `UCIEngine.stop`). -/
inductive Action where
  | send (line : String)
  | kill
  deriving DecidableEq, Repr

/-- How an `analyse` call ends.  `starved` marks exhaustion of the modelled
event list (the real loop would still be awaiting the queue; `wait_for`
always eventually yields a line or a timeout). -/
inductive AnalyseOutcome where
  | ok (r : AnalysisResult)
  | timedOut
  | starved
  deriving DecidableEq

/-- One delivery from `asyncio.wait_for(self._queue.get(), timeout)`:
either the next queued engine line, or a `TimeoutError`. -/
inductive QEvent where
  | line (s : String)
  | timeout
  deriving DecidableEq, Repr

/-- The read loop of `UCIEngine.analyse`, with the lines it writes to the
engine as a trace.  A timeout sends `stop` and raises; a `bestmove` line
returns the built result; `info` lines update the state; anything else is
skipped. -/
def analyseLoop : List QEvent → LoopState → List Action × AnalyseOutcome
  | [], _ => ([], .starved)
  | QEvent.timeout :: _, _ => ([Action.send "stop"], .timedOut)
  | QEvent.line l :: rest, st =>
    if pyStartswith l "info" then
      analyseLoop rest (analyseStep l st)
    else if pyStartswith l "bestmove" then
      ([], .ok (buildResult l st.mpv st.best_depth st.best_nodes))
    else
      analyseLoop rest st

/-- `UCIEngine.analyse(fen, movetime_ms)` over a modelled event stream:
the commands written plus the outcome.  The stale-queue drain precedes the
modelled stream, so `events` are the lines seen after `go` is issued. -/
def analyseRun (fen : String) (movetime_ms : Int) (events : List QEvent) :
    List Action × AnalyseOutcome :=
  (Action.send ("position fen " ++ fen) ::
     Action.send ("go movetime " ++ toString movetime_ms) ::
     (analyseLoop events ⟨emptyMpv, 0, 0⟩).1,
   (analyseLoop events ⟨emptyMpv, 0, 0⟩).2)

/-! ### WebSocket dispatch (`Lc0Server._dispatch`) -/

/-- An inbound message, with the fields `_dispatch` reads.  Absent keys are
`none`; `movetime`, when present, is the integer `int(...)` yields. -/
structure WsMsg where
  cmd      : Option String
  fen      : Option String
  movetime : Option Int
  deriving DecidableEq, Repr

/-- What `_dispatch` decides to do with a message (before any engine I/O). -/
inductive DispatchAction where
  | pong
  | newGameOk
  | errMissingFen
  | runAnalyse (fen : String) (movetime : Int)
  | runEngineMove (fen : String) (movetime : Int)
  | errUnknown (cmd : String)
  deriving DecidableEq, Repr

/-- The command routing and argument-defaulting of `Lc0Server._dispatch`. -/
def dispatchPlan (msg : WsMsg) : DispatchAction :=
  let cmd := msg.cmd.getD ""
  if cmd = "ping" then .pong
  else if cmd = "new_game" then .newGameOk
  else if cmd = "analyse" then
    let fen := msg.fen.getD ""
    let movetime := msg.movetime.getD 2000
    if fen = "" then .errMissingFen else .runAnalyse fen movetime
  else if cmd = "engine_move" then
    let fen := msg.fen.getD ""
    let movetime := msg.movetime.getD 3000
    if fen = "" then .errMissingFen else .runEngineMove fen movetime
  else .errUnknown cmd

/-! ### Spec-side definitions

Used only to state refinement theorems: these follow the wording of the
design document, to be compared against the source-derived functions. -/

/-- Spec §4.6: the colour of the side to move, rendered for output. -/
def colorNameSpec (side : String) : String :=
  if side = "w" then "White" else "Black"

/-- Spec §4.6: the colour of the side not to move. -/
def otherColorNameSpec (side : String) : String :=
  if side = "w" then "Black" else "White"

/-- Spec §4.6: "a positive value means the side to move delivers mate; a
negative value means the side to move is being mated — attribute the
winner by combining this sign with which side is to move." -/
def mateWinnerSpec (side : String) (m : Int) : String :=
  if 0 < m then colorNameSpec side else otherColorNameSpec side

/-- Spec §4.6 (claim C8): negate the centipawn value when the side to move
is the second player, then classify |value| in pawns into the bands
`<0.2` equal, `<0.5` slight, `<1.5` clear, `<3.0` large, else winning,
naming the favoured side from the normalized sign.  Thresholds are stated
here in integer centipawns (`20/50/150/300`). -/
def feedbackCpSpec (c : Int) (side : String) : String :=
  let v : Int := if side = "b" then -c else c
  if |v| < 20 then "The position is roughly equal."
  else
    let favour := if 0 < v then "White" else "Black"
    if |v| < 50 then "Slight advantage for " ++ favour ++ " (" ++ fmtSignedPawns ((v : ℚ) / 100) ++ ")."
    else if |v| < 150 then "Clear advantage for " ++ favour ++ " (" ++ fmtSignedPawns ((v : ℚ) / 100) ++ ")."
    else if |v| < 300 then "Large advantage for " ++ favour ++ " (" ++ fmtSignedPawns ((v : ℚ) / 100) ++ ")."
    else favour ++ " is winning (" ++ fmtSignedPawns ((v : ℚ) / 100) ++ ")."

/-- `pat` occurs as a contiguous substring of `s`. -/
def containsSub (pat s : String) : Bool :=
  s.toList.tails.any (fun t => pat.toList.isPrefixOf t)

/-! ## Map lemmas for the `mpv` dict -/

theorem getSlot_setSlot_self (m : Mpv) (k : Int) (s : Slot) :
    getSlot (setSlot m k s) k = some s := by
  induction m with
  | nil => simp [setSlot, getSlot]
  | cons e rest ih =>
    obtain ⟨k', s'⟩ := e
    by_cases h : k' = k <;> simp [setSlot, getSlot, h, ih]

theorem getSlot_setSlot_ne (m : Mpv) (k j : Int) (s : Slot) (h : j ≠ k) :
    getSlot (setSlot m k s) j = getSlot m j := by
  induction m with
  | nil => simp [setSlot, getSlot, Ne.symm h]
  | cons e rest ih =>
    obtain ⟨k', s'⟩ := e
    by_cases hk : k' = k
    · subst hk
      simp [setSlot, getSlot, Ne.symm h]
    · simp [setSlot, getSlot, hk, ih]

theorem getSlot_ensureSlot_ne (m : Mpv) (k j : Int) (h : j ≠ k) :
    getSlot (ensureSlot m k) j = getSlot m j := by
  unfold ensureSlot
  cases hg : getSlot m k with
  | some s => rfl
  | none => exact getSlot_setSlot_ne m k j defaultSlot h

theorem getSlot_ensureSlot_isSome (m : Mpv) (k : Int) :
    (getSlot (ensureSlot m k) k).isSome := by
  unfold ensureSlot
  cases hg : getSlot m k with
  | some s => simp [hg]
  | none => simp [getSlot_setSlot_self]

theorem pvStep_score_cp (parts : List String) (s : Slot) :
    (pvStep parts s).score_cp = s.score_cp := by
  unfold pvStep
  cases pyIndex parts "pv" <;> rfl

theorem pvStep_score_mate (parts : List String) (s : Slot) :
    (pvStep parts s).score_mate = s.score_mate := by
  unfold pvStep
  cases pyIndex parts "pv" <;> rfl

/-! ## Claim theorems -/

/-- C9: `uci_to_parts` returns from-square = first two characters,
to-square = next two, and promotion = the fifth character exactly when the
length exceeds four; the empty string and any string shorter than four
characters yield `("", "", none)`.  In particular `"e2e4"` and `"e7e8q"`
decode as stated. -/
theorem uci_to_parts_correct :
    (∀ move : String,
      uci_to_parts move =
        if move.length < 4 then ("", "", none)
        else (move.take 2, (move.drop 2).take 2,
              if move.length > 4 then some ((move.drop 4).take 1) else none)) ∧
    uci_to_parts "e2e4" = ("e2", "e4", none) ∧
    uci_to_parts "e7e8q" = ("e7", "e8", some "q") ∧
    uci_to_parts "" = ("", "", none) := by
  refine ⟨fun move => ?_, by decide, by decide, by decide⟩
  unfold uci_to_parts
  by_cases h : move.length < 4
  · simp [h]
  · have h0 : ¬ move = "" := by
      intro e
      rw [e] at h
      exact h (by decide)
    simp [h, h0]

/-- C3 counterexample: on two equal centipawn scores 100 and 100 the gap is
0, and the evaluator classifies difficulty as `"Expert"` (the `gap < 0.1`
branch), not `"Beginner"` as the claim states. -/
theorem characteristics_equal_scores_refuted :
    (calculate_characteristics
        [(1, ⟨some 100, none, [], none⟩), (2, ⟨some 100, none, [], none⟩)]).difficulty
      = "Expert" ∧
    ¬ (calculate_characteristics
        [(1, ⟨some 100, none, [], none⟩), (2, ⟨some 100, none, [], none⟩)]).difficulty
      = "Beginner" := by
  have h : (calculate_characteristics
      [(1, ⟨some 100, none, [], none⟩), (2, ⟨some 100, none, [], none⟩)]).difficulty
      = "Expert" := by
    norm_num [calculate_characteristics, getSlot]
  refine ⟨h, ?_⟩
  rw [h]
  decide

/-- C3 amended: on two equal centipawn scores 100 and 100 (gap = 0) the
evaluator returns sharpness `"Quiet"`, difficulty `"Expert"`,
margin-for-error `"Forgiving"` and line type `"Quiet"`. -/
theorem characteristics_equal_scores :
    calculate_characteristics
        [(1, ⟨some 100, none, [], none⟩), (2, ⟨some 100, none, [], none⟩)]
      = ⟨"Quiet", "Expert", "Forgiving", "Quiet",
         "Many moves are roughly equal. Requires deep calculation. Several moves keep the advantage. Maneuvering — incremental improvement."⟩ := by
  norm_num [calculate_characteristics, getSlot]
  decide

/-- C5: whenever the rank-1 or rank-2 slot's centipawn score is absent
(slot missing, or holding a mate score, which clears the centipawn value),
the evaluator returns the fixed default Balanced/Intermediate/Moderate/
Flexible with its generic explanation, regardless of the other slot. -/
theorem characteristics_default_when_cp_missing (mpv : Mpv)
    (h : (getSlot mpv 1).bind Slot.score_cp = none ∨
         (getSlot mpv 2).bind Slot.score_cp = none) :
    calculate_characteristics mpv = defaultCharacteristics := by
  rcases h with h | h
  · unfold calculate_characteristics
    rw [h]
  · unfold calculate_characteristics
    rw [h]
    cases (getSlot mpv 1).bind Slot.score_cp <;> rfl

theorem characteristics_default_when_cp_missing_witness :
    calculate_characteristics
        [(1, ⟨none, some 2, [], none⟩), (2, ⟨some 50, none, [], none⟩)]
      = defaultCharacteristics :=
  characteristics_default_when_cp_missing _ (Or.inl (by decide))

/-- C2: `_build_result` maps the terminal token `"(none)"` to an absent
best move, and any other second token of the terminal line to itself. -/
theorem build_result_bestmove (line : String) (mpv : Mpv) (d n : Int) (m : String)
    (h : (pySplit line).get? 1 = some m) :
    (m = "(none)" → (buildResult line mpv d n).bestmove = none) ∧
    (m ≠ "(none)" → (buildResult line mpv d n).bestmove = some m) := by
  have h' : (pySplit line)[1]? = some m := by simpa using h
  constructor <;> intro hm
  · subst hm
    unfold buildResult
    simp [h']
  · unfold buildResult
    simp [h', hm]

theorem build_result_bestmove_witness :
    (buildResult "bestmove (none)" emptyMpv 0 0).bestmove = none ∧
    (buildResult "bestmove e2e4 ponder e7e5" emptyMpv 0 0).bestmove = some "e2e4" :=
  ⟨(build_result_bestmove "bestmove (none)" emptyMpv 0 0 "(none)" (by decide)).1 rfl,
   (build_result_bestmove "bestmove e2e4 ponder e7e5" emptyMpv 0 0 "e2e4" (by decide)).2
     (by decide)⟩

/-- C10: a missing `movetime` field is defaulted — 2000 ms for `analyse`,
3000 ms for `engine_move` — and the request proceeds (it is not rejected
for the missing field). -/
theorem dispatch_movetime_defaults (msg : WsMsg) (f : String)
    (hmt : msg.movetime = none) (hf : msg.fen = some f) (hne : f ≠ "") :
    (msg.cmd = some "analyse" → dispatchPlan msg = .runAnalyse f 2000) ∧
    (msg.cmd = some "engine_move" → dispatchPlan msg = .runEngineMove f 3000) := by
  constructor <;> intro hc <;> unfold dispatchPlan <;> rw [hc, hmt, hf] <;> simp [hne]

/-- C1: an Info line carrying a well-formed score for slot K (`score`
followed by a kind token `"cp"`/`"mate"` and a parseable integer) leaves
slot K holding exactly the event's score kind — the other kind cleared —
and every other slot unchanged. -/
theorem parse_info_score_slot (line : String) (mpv : Mpv) (k : Int)
    (kind vtok : String) (v : Int)
    (hslot : determineSlot (pySplit line) = k)
    (hkind : tokenAfter (pySplit line) "score" 1 = some kind)
    (hvtok : tokenAfter (pySplit line) "score" 2 = some vtok)
    (hv : pyInt vtok = some v) :
    (kind = "cp" →
      (getSlot (parseInfo line mpv) k).map Slot.score_cp = some (some v) ∧
      (getSlot (parseInfo line mpv) k).map Slot.score_mate = some none) ∧
    (kind = "mate" →
      (getSlot (parseInfo line mpv) k).map Slot.score_mate = some (some v) ∧
      (getSlot (parseInfo line mpv) k).map Slot.score_cp = some none) ∧
    (∀ j, j ≠ k → getSlot (parseInfo line mpv) j = getSlot mpv j) := by
  rcases hidx : pyIndex (pySplit line) "score" with _ | i
  · rw [tokenAfter, hidx] at hkind
    exact absurd hkind (by simp)
  · simp only [tokenAfter, hidx, List.get?_eq_getElem?] at hkind hvtok
    obtain ⟨s, hs⟩ : ∃ s, getSlot (ensureSlot mpv k) k = some s := by
      have hsome := getSlot_ensureSlot_isSome mpv k
      cases hg : getSlot (ensureSlot mpv k) k
      · rw [hg] at hsome
        exact absurd hsome (by simp)
      · exact ⟨_, rfl⟩
    have hscore : scoreStep (pySplit line) s =
        some (if kind = "cp" then { s with score_cp := some v, score_mate := none }
              else if kind = "mate" then { s with score_mate := some v, score_cp := none }
              else s) := by
      simp [scoreStep, hidx, hkind, hvtok, hv]
      split_ifs <;> rfl
    have hrun : parseInfo line mpv =
        setSlot (ensureSlot mpv k) k
          (pvStep (pySplit line)
            (if kind = "cp" then { s with score_cp := some v, score_mate := none }
             else if kind = "mate" then { s with score_mate := some v, score_cp := none }
             else s)) := by
      simp only [parseInfo, parseInfoParts, hslot, hs, hscore]
    refine ⟨?_, ?_, ?_⟩
    · intro hc
      subst hc
      rw [hrun, getSlot_setSlot_self]
      simp [pvStep_score_cp, pvStep_score_mate]
    · intro hc
      subst hc
      rw [hrun, getSlot_setSlot_self]
      simp [pvStep_score_cp, pvStep_score_mate]
    · intro j hj
      rw [hrun, getSlot_setSlot_ne _ _ _ _ hj, getSlot_ensureSlot_ne _ _ _ hj]

theorem parse_info_score_slot_witness :
    (getSlot (parseInfo "info depth 8 multipv 2 score cp 35 pv e2e4"
        [(1, defaultSlot)]) 2).map Slot.score_cp = some (some 35) ∧
    (getSlot (parseInfo "info depth 8 multipv 2 score cp 35 pv e2e4"
        [(1, defaultSlot)]) 2).map Slot.score_mate = some none ∧
    getSlot (parseInfo "info depth 8 multipv 2 score cp 35 pv e2e4"
        [(1, defaultSlot)]) 1 = getSlot [(1, defaultSlot)] 1 := by
  have h := parse_info_score_slot "info depth 8 multipv 2 score cp 35 pv e2e4"
    [(1, defaultSlot)] 2 "cp" "35" 35 (by decide) (by decide) (by decide) (by decide)
  exact ⟨(h.1 rfl).1, (h.1 rfl).2, h.2.2 1 (by decide)⟩

/-! ## Depth/nodes tracking in the analyse loop -/

theorem analyseStep_depth (l : String) (s : LoopState) :
    (analyseStep l s).best_depth =
      match infoDepth l with
      | some v => if v > s.best_depth then v else s.best_depth
      | none => s.best_depth := by
  unfold analyseStep infoDepth
  by_cases hp : pyStartswith l "info"
  · simp only [hp, if_true]
    unfold depthNodes
    cases hk : keyedInt (pySplit l) "depth" with
    | error e => rfl
    | ok od =>
      cases od <;> cases hk2 : keyedInt (pySplit l) "nodes" <;> rfl
  · simp [hp]

theorem analyseStep_nodes (l : String) (s : LoopState) :
    (analyseStep l s).best_nodes = (infoNodes l).getD s.best_nodes := by
  unfold analyseStep infoNodes
  by_cases hp : pyStartswith l "info"
  · simp only [hp, if_true]
    unfold depthNodes
    cases hk : keyedInt (pySplit l) "depth" with
    | error e => rfl
    | ok od =>
      cases od <;> cases hk2 : keyedInt (pySplit l) "nodes" <;>
        rename_i nopt <;> first
        | rfl
        | (cases nopt <;> rfl)
  · simp [hp]

theorem analyseStep_depth_mono (l : String) (s : LoopState) :
    s.best_depth ≤ (analyseStep l s).best_depth := by
  rw [analyseStep_depth]
  cases infoDepth l with
  | none => exact le_refl _
  | some v =>
    dsimp only
    by_cases hv : v > s.best_depth
    · rw [if_pos hv]
      omega
    · rw [if_neg hv]

theorem foldl_analyseStep_depth (lines : List String) (st : LoopState) :
    (lines.foldl (fun s l => analyseStep l s) st).best_depth =
      (lines.filterMap infoDepth).foldl
        (fun a v => if v > a then v else a) st.best_depth := by
  induction lines generalizing st with
  | nil => rfl
  | cons l ls ih =>
    rw [List.foldl_cons, ih, List.filterMap_cons]
    cases hd : infoDepth l <;> simp [analyseStep_depth, hd]

theorem getLast?_cons_getD {α : Type} (xs : List α) (v a : α) :
    ((v :: xs).getLast?).getD a = (xs.getLast?).getD v := by
  induction xs generalizing v a with
  | nil => rfl
  | cons x xs ih =>
    rw [List.getLast?_cons_cons, ih x a, ih x v]

theorem foldl_analyseStep_nodes (lines : List String) (st : LoopState) :
    (lines.foldl (fun s l => analyseStep l s) st).best_nodes =
      ((lines.filterMap infoNodes).getLast?).getD st.best_nodes := by
  induction lines generalizing st with
  | nil => rfl
  | cons l ls ih =>
    rw [List.foldl_cons, ih, List.filterMap_cons]
    cases hn : infoNodes l with
    | none => simp [analyseStep_nodes, hn]
    | some v => simp [analyseStep_nodes, hn, getLast?_cons_getD]

/-- A line starting with `"bestmove"` does not start with `"info"`. -/
theorem bestmove_not_info (t : String) (h : pyStartswith t "bestmove" = true) :
    pyStartswith t "info" = false := by
  unfold pyStartswith at h ⊢
  rw [show "bestmove".toList = 'b' :: "estmove".toList from rfl] at h
  rw [show "info".toList = 'i' :: "nfo".toList from rfl]
  cases hl : t.toList with
  | nil =>
    rw [hl] at h
    simp only [List.isPrefixOf] at h
    exact absurd h (by decide)
  | cons c cs =>
    rw [hl] at h
    simp only [List.isPrefixOf] at h ⊢
    rw [Bool.and_eq_true] at h
    have hc : c = 'b' := by
      have h1 := h.1
      rw [beq_iff_eq] at h1
      exact h1.symm
    subst hc
    rw [show ('i' == 'b') = false from rfl, Bool.false_and]

/-- Running the loop over non-terminal lines followed by a terminal
`bestmove` line: the result is built from the folded state. -/
theorem analyseLoop_terminal (lines : List String) (term : String)
    (rest : List QEvent) (st : LoopState)
    (hterm : pyStartswith term "bestmove" = true)
    (hlines : ∀ l ∈ lines, pyStartswith l "bestmove" = false) :
    analyseLoop (lines.map QEvent.line ++ QEvent.line term :: rest) st =
      ([], .ok (buildResult term
        (lines.foldl (fun s l => analyseStep l s) st).mpv
        (lines.foldl (fun s l => analyseStep l s) st).best_depth
        (lines.foldl (fun s l => analyseStep l s) st).best_nodes)) := by
  induction lines generalizing st with
  | nil =>
    simp only [List.map_nil, List.nil_append, List.foldl_nil, analyseLoop,
      bestmove_not_info term hterm, Bool.false_eq_true, if_false, hterm, if_true]
  | cons l ls ih =>
    have hl : pyStartswith l "bestmove" = false := hlines l (by simp)
    have hls : ∀ x ∈ ls, pyStartswith x "bestmove" = false :=
      fun x hx => hlines x (by simp [hx])
    by_cases hinfo : pyStartswith l "info"
    · simp only [List.map_cons, List.cons_append, analyseLoop, hinfo, if_true,
        List.foldl_cons]
      exact ih (analyseStep l st) hls
    · have hinfo' : pyStartswith l "info" = false := by
        simpa using hinfo
      have hstep : analyseStep l st = st := by
        unfold analyseStep
        rw [hinfo']
        rfl
      simp only [List.map_cons, List.cons_append, analyseLoop, hinfo',
        Bool.false_eq_true, if_false, hl, List.foldl_cons, hstep]
      exact ih st hls

/-- C6: within one analyse call the tracked depth never decreases (each
processed line moves it only to a strictly larger parsed value), the
tracked nodes value always equals the most recently parsed `nodes` token,
both stay at their initial values when never parsed, and the terminal
result is built from exactly these tracked values. -/
theorem analyse_depth_nodes_tracking (lines : List String) (st : LoopState) :
    (∀ l s, s.best_depth ≤ (analyseStep l s).best_depth) ∧
    (lines.foldl (fun s l => analyseStep l s) st).best_depth =
      (lines.filterMap infoDepth).foldl
        (fun a v => if v > a then v else a) st.best_depth ∧
    (lines.foldl (fun s l => analyseStep l s) st).best_nodes =
      ((lines.filterMap infoNodes).getLast?).getD st.best_nodes ∧
    (lines.filterMap infoDepth = [] →
      (lines.foldl (fun s l => analyseStep l s) st).best_depth = st.best_depth) ∧
    (lines.filterMap infoNodes = [] →
      (lines.foldl (fun s l => analyseStep l s) st).best_nodes = st.best_nodes) ∧
    (∀ term rest, pyStartswith term "bestmove" = true →
      (∀ l ∈ lines, pyStartswith l "bestmove" = false) →
      analyseLoop (lines.map QEvent.line ++ QEvent.line term :: rest) st =
        ([], .ok (buildResult term
          (lines.foldl (fun s l => analyseStep l s) st).mpv
          (lines.foldl (fun s l => analyseStep l s) st).best_depth
          (lines.foldl (fun s l => analyseStep l s) st).best_nodes))) := by
  refine ⟨fun l s => analyseStep_depth_mono l s, foldl_analyseStep_depth lines st,
    foldl_analyseStep_nodes lines st, ?_, ?_, ?_⟩
  · intro h
    rw [foldl_analyseStep_depth, h]
    rfl
  · intro h
    rw [foldl_analyseStep_nodes, h]
    rfl
  · intro term rest hterm hlines
    exact analyseLoop_terminal lines term rest st hterm hlines

theorem analyse_depth_nodes_tracking_witness :
    (["ready"].foldl (fun s l => analyseStep l s) ⟨emptyMpv, 5, 7⟩).best_depth = 5 ∧
    (["ready"].foldl (fun s l => analyseStep l s) ⟨emptyMpv, 5, 7⟩).best_nodes = 7 ∧
    analyseLoop ((["ready"].map QEvent.line) ++ QEvent.line "bestmove e2e4" :: [])
        ⟨emptyMpv, 5, 7⟩ =
      ([], .ok (buildResult "bestmove e2e4"
        (["ready"].foldl (fun s l => analyseStep l s) ⟨emptyMpv, 5, 7⟩).mpv
        (["ready"].foldl (fun s l => analyseStep l s) ⟨emptyMpv, 5, 7⟩).best_depth
        (["ready"].foldl (fun s l => analyseStep l s) ⟨emptyMpv, 5, 7⟩).best_nodes)) := by
  have h := analyse_depth_nodes_tracking ["ready"] ⟨emptyMpv, 5, 7⟩
  refine ⟨h.2.2.2.1 (by decide), h.2.2.2.2.1 (by decide), ?_⟩
  refine h.2.2.2.2.2 "bestmove e2e4" [] (by decide) ?_
  intro l hl
  simp at hl
  subst hl
  decide

/-! ## Timeout path of the analyse loop -/

/-- If a timeout event arrives before any terminal line, the loop sends
exactly the single `stop` command and reports the timeout. -/
theorem analyseLoop_timeout (pre post : List QEvent) (st : LoopState)
    (hline : ∀ l, QEvent.line l ∈ pre → pyStartswith l "bestmove" = false)
    (hto : QEvent.timeout ∉ pre) :
    analyseLoop (pre ++ QEvent.timeout :: post) st =
      ([Action.send "stop"], .timedOut) := by
  induction pre generalizing st with
  | nil => rfl
  | cons e es ih =>
    have hline' : ∀ l, QEvent.line l ∈ es → pyStartswith l "bestmove" = false :=
      fun l hl => hline l (by simp [hl])
    have hto' : QEvent.timeout ∉ es := fun hc => hto (by simp [hc])
    cases e with
    | timeout => exact absurd (by simp) hto
    | line l =>
      have hl : pyStartswith l "bestmove" = false := hline l (by simp)
      by_cases hinfo : pyStartswith l "info"
      · simp only [List.cons_append, analyseLoop, hinfo, if_true]
        exact ih (analyseStep l st) hline' hto'
      · have hinfo' : pyStartswith l "info" = false := by simpa using hinfo
        simp only [List.cons_append, analyseLoop, hinfo', Bool.false_eq_true,
          if_false, hl]
        exact ih st hline' hto'

/-- C7: when no terminal line arrives before the deadline expires (a
timeout event precedes any `bestmove` line), `analyse` writes `stop` to
the engine exactly once, the call fails with the timeout outcome, and no
kill action is ever emitted. -/
theorem analyse_timeout_stops_once (fen : String) (mt : Int) (pre post : List QEvent)
    (hline : ∀ l, QEvent.line l ∈ pre → pyStartswith l "bestmove" = false)
    (hto : QEvent.timeout ∉ pre) :
    (analyseRun fen mt (pre ++ QEvent.timeout :: post)).2 = .timedOut ∧
    (analyseRun fen mt (pre ++ QEvent.timeout :: post)).1.count (Action.send "stop") = 1 ∧
    Action.kill ∉ (analyseRun fen mt (pre ++ QEvent.timeout :: post)).1 := by
  have hL := analyseLoop_timeout pre post ⟨emptyMpv, 0, 0⟩ hline hto
  have hne1 : ("position fen " ++ fen) ≠ "stop" := by
    intro hc
    have hlen := congrArg String.length hc
    rw [String.length_append] at hlen
    have h13 : ("position fen ").length = 13 := by decide
    have h4 : ("stop").length = 4 := by decide
    omega
  have hne2 : ("go movetime " ++ toString mt) ≠ "stop" := by
    intro hc
    have hlen := congrArg String.length hc
    rw [String.length_append] at hlen
    have h12 : ("go movetime ").length = 12 := by decide
    have h4 : ("stop").length = 4 := by decide
    omega
  have hacts : (analyseRun fen mt (pre ++ QEvent.timeout :: post)).1 =
      [Action.send ("position fen " ++ fen),
       Action.send ("go movetime " ++ toString mt), Action.send "stop"] := by
    unfold analyseRun
    rw [hL]
  refine ⟨?_, ?_, ?_⟩
  · unfold analyseRun
    rw [hL]
  · rw [hacts]
    simp [List.count_cons, hne1, hne2, Ne.symm hne1, Ne.symm hne2]
  · rw [hacts]
    simp

theorem analyse_timeout_stops_once_witness :
    (analyseRun "8/8/8/8/8/8/8/K6k w - - 0 1" 1000
        [QEvent.line "info depth 3", QEvent.timeout]).2 = .timedOut ∧
    (analyseRun "8/8/8/8/8/8/8/K6k w - - 0 1" 1000
        [QEvent.line "info depth 3", QEvent.timeout]).1.count (Action.send "stop") = 1 ∧
    Action.kill ∉ (analyseRun "8/8/8/8/8/8/8/K6k w - - 0 1" 1000
        [QEvent.line "info depth 3", QEvent.timeout]).1 := by
  have h := analyse_timeout_stops_once "8/8/8/8/8/8/8/K6k w - - 0 1" 1000
    [QEvent.line "info depth 3"] []
    (by
      intro l hl
      simp at hl
      subst hl
      decide)
    (by decide)
  exact h

/-- C4 counterexample: at mate score −3 with White to move, the attributed
winner (score sign combined with the side to move) is Black, but the
returned feedback is `"Opponent has mate in 3."`, which does not name that
winner (the substring `"Black"` does not occur in it). -/
theorem mate_feedback_refuted :
    score_to_feedback none (some (-3)) "w" = "Opponent has mate in 3." ∧
    mateWinnerSpec "w" (-3) = "Black" ∧
    containsSub "Black" (score_to_feedback none (some (-3)) "w") = false := by
  refine ⟨by decide, by decide, by decide⟩

/-- C4 amended: the winner is attributed by combining the score's sign
with the side to move, and for positive mate scores the feedback names
that winner; for non-positive mate scores the feedback is the fixed
sentence `"Opponent has mate in n."`, which names no colour. -/
theorem mate_feedback (c : Option Int) (m : Int) (side : String) :
    score_to_feedback c (some m) side =
      if 0 < m then
        mateWinnerSpec side m ++ " has mate in " ++ toString m.natAbs ++ "."
      else "Opponent has mate in " ++ toString m.natAbs ++ "." := by
  unfold score_to_feedback mateWinnerSpec colorNameSpec otherColorNameSpec
  by_cases hs : side = "w" <;> by_cases hm : 0 < m <;> simp [hs, hm]

/-- `|v/100| < k/100` over ℚ, with `v`, `k` integers, is `|v| < k`. -/
theorem abs_div_hundred_lt (v k : Int) :
    |(v : ℚ) / 100| < (k : ℚ) / 100 ↔ |v| < k := by
  rw [abs_div, abs_of_pos (show (0 : ℚ) < 100 by norm_num),
    div_lt_div_iff₀ (show (0 : ℚ) < 100 by norm_num) (show (0 : ℚ) < 100 by norm_num),
    mul_lt_mul_right (show (0 : ℚ) < 100 by norm_num)]
  exact_mod_cast Iff.rfl

theorem band02 (w : Int) : |(w : ℚ) / 100| < 0.2 ↔ |w| < 20 := by
  rw [show (0.2 : ℚ) = (20 : ℚ) / 100 by norm_num]
  exact abs_div_hundred_lt w 20

theorem band05 (w : Int) : |(w : ℚ) / 100| < 0.5 ↔ |w| < 50 := by
  rw [show (0.5 : ℚ) = (50 : ℚ) / 100 by norm_num]
  exact abs_div_hundred_lt w 50

theorem band15 (w : Int) : |(w : ℚ) / 100| < 1.5 ↔ |w| < 150 := by
  rw [show (1.5 : ℚ) = (150 : ℚ) / 100 by norm_num]
  exact abs_div_hundred_lt w 150

theorem band30 (w : Int) : |(w : ℚ) / 100| < 3.0 ↔ |w| < 300 := by
  rw [show (3.0 : ℚ) = (300 : ℚ) / 100 by norm_num]
  exact abs_div_hundred_lt w 300

theorem pos_div_hundred (w : Int) : 0 < (w : ℚ) / 100 ↔ 0 < w := by
  rw [lt_div_iff₀ (show (0 : ℚ) < 100 by norm_num)]
  norm_num

/-- C8: the centipawn branch of `score_to_feedback` coincides with the
spec-worded normalization: negate when the side to move is the second
player, classify `|value|` into the `0.2 / 0.5 / 1.5 / 3.0`-pawn bands,
and name the favoured side from the normalized sign. -/
theorem feedback_cp_normalization (c : Int) (side : String) :
    score_to_feedback (some c) none side = feedbackCpSpec c side := by
  unfold score_to_feedback feedbackCpSpec
  by_cases hb : side = "b"
  · simp only [hb, eq_self_iff_true, if_true, ← neg_div, ← Int.cast_neg,
      band02, band05, band15, band30, pos_div_hundred]
  · simp only [hb, if_false, band02, band05, band15, band30, pos_div_hundred]

theorem dispatch_movetime_defaults_witness :
    dispatchPlan ⟨some "analyse", some "startpos", none⟩ = .runAnalyse "startpos" 2000 ∧
    dispatchPlan ⟨some "engine_move", some "startpos", none⟩ = .runEngineMove "startpos" 3000 :=
  ⟨(dispatch_movetime_defaults ⟨some "analyse", some "startpos", none⟩ "startpos"
      rfl rfl (by decide)).1 rfl,
   (dispatch_movetime_defaults ⟨some "engine_move", some "startpos", none⟩ "startpos"
      rfl rfl (by decide)).2 rfl⟩

end Lc0
